import Mathlib

/-!
A shallow embedding of mockldap's `LDAPObject` (src/mockldap/ldapobject.py).

Python byte strings and text strings are both modelled as `String`
(`.encode('utf-8')` / `.decode('utf-8')` become the identity).  External
collaborators — `ldap.dn.str2dn` validity, `ldap.dn.explode_dn`, the filter
parser from the `.filter` module, `crypt.crypt`, `base64.b64decode` and
`hashlib.sha1` — are passed as parameters of the operations that use them, so
every theorem below holds for any implementation of those collaborators.
-/

namespace MockLdap

/-- The `ldap` exception classes raised in `ldapobject.py`, the Python builtin
exceptions its code can raise (`TypeError`, `ValueError`, `KeyError`,
`IndexError`), and the recording layer's `SeedRequired`. -/
inductive PyErr where
  | invalidDnSyntax
  | noSuchObject
  | alreadyExists
  | protocolError
  | invalidCredentials (diag : String)
  | typeError
  | valueError
  | keyError
  | indexError
  | seedRequired
deriving DecidableEq

/-- Python `dict` lookup on an association list (first matching key). -/
def dictGet (d : List (String × α)) (k : String) : Option α :=
  match d with
  | [] => none
  | (k', v) :: rest => if k' == k then some v else dictGet rest k

/-- Python `d[k] = v`: replace the binding of `k` in place, else append. -/
def dictSet (d : List (String × α)) (k : String) (v : α) : List (String × α) :=
  match d with
  | [] => [(k, v)]
  | (k', v') :: rest =>
    if k' == k then (k', v) :: rest else (k', v') :: dictSet rest k v

/-- Python `del d[k]` (a no-op when `k` is absent; call sites that could hit
`KeyError` guard presence explicitly). -/
def dictDel (d : List (String × α)) (k : String) : List (String × α) :=
  match d with
  | [] => []
  | (k', v') :: rest => if k' == k then rest else (k', v') :: dictDel rest k

/-- Python `str.lower()` (ASCII case folding, which covers the DN alphabet
this code manipulates). -/
def pyLower (s : String) : String := ⟨s.data.map Char.toLower⟩

/-- An LDAP entry: Python `{attr: [values]}`; attribute lookup on the inner
dict is case-sensitive in the source. -/
abbrev Entry := List (String × List String)

/-- The backing data of `ldap.cidict.cidict`: keys are stored lower-cased and
every access lower-cases its argument. -/
abbrev Directory := List (String × Entry)

def cidictGet (d : Directory) (k : String) : Option Entry := dictGet d (pyLower k)

def cidictSet (d : Directory) (k : String) (e : Entry) : Directory :=
  dictSet d (pyLower k) e

def cidictDel (d : Directory) (k : String) : Directory := dictDel d (pyLower k)

def cidictContains (d : Directory) (k : String) : Bool := (cidictGet d k).isSome

/-- Python `str.split(sep)` for a one-character separator, on char lists. -/
def pySplitChars (sep : Char) : List Char → List (List Char)
  | [] => [[]]
  | c :: rest =>
    match pySplitChars sep rest with
    | [] => [[]]
    | h :: t => if c == sep then [] :: h :: t else (c :: h) :: t

/-- Python `str.split(sep)` for a one-character separator. -/
def pySplit (sep : Char) (s : String) : List String :=
  (pySplitChars sep s.data).map (fun l => String.mk l)

/-- Python `','.join(parts)`. -/
def joinComma : List String → String
  | [] => ""
  | [a] => a
  | a :: rest => a ++ "," ++ joinComma rest

/-- Tail group of the regex `PASSWORD_RE = ^\x7b(.*?)\x7d(.*)`: the greedy
`(.*)` stops at a newline. -/
def reTagRest : List Char → List Char
  | [] => []
  | c :: rest => if c == '\n' then [] else c :: reTagRest rest

/-- Scheme group of `PASSWORD_RE`: the shortest run of non-newline characters
ending at the first closing brace. -/
def reTagScheme : List Char → Option (List Char × List Char)
  | [] => none
  | c :: rest =>
    if c == '\x7d' then some ([], reTagRest rest)
    else if c == '\n' then none
    else (reTagScheme rest).map (fun p => (c :: p.1, p.2))

/-- `LDAPObject.PASSWORD_RE.match(value)`: `some (scheme, rest)` mirrors
`match.groups()`, `none` a failed match. -/
def reTagMatch (value : List Char) : Option (List Char × List Char) :=
  match value with
  | c :: rest => if c == '\x7b' then reTagScheme rest else none
  | [] => none

/-- External collaborators of `_compare_password`: `crypt.crypt` (absent when
its import fails), `base64.b64decode` (which may raise on bad input) and
`hashlib.sha1(...).digest()` (bytes modelled as `String`, digest size 20). -/
structure ExtFns where
  cryptFn : Option (String → String → String)
  b64decode : String → Except PyErr String
  sha1 : String → String

/-- Python slice `s[:n]`. -/
def strTake (n : Nat) (s : String) : String := ⟨s.data.take n⟩

/-- Python slice `s[n:]`. -/
def strDrop (n : Nat) (s : String) : String := ⟨s.data.drop n⟩

/-- The `scheme == 'SSHA'` branch of `_compare_password`. -/
def sshaCheck (ext : ExtFns) (password raw : String) : Except PyErr Bool :=
  match ext.b64decode raw with
  | .error e => .error e
  | .ok decoded =>
    .ok (ext.sha1 (password ++ strDrop 20 decoded) == strTake 20 decoded)

/-- `LDAPObject._compare_password`. -/
def compare_password (ext : ExtFns) (password value : String) :
    Except PyErr Bool :=
  match reTagMatch value.data with
  | some (scheme0, raw0) =>
    let scheme : String := ⟨scheme0⟩
    let raw : String := ⟨raw0⟩
    match ext.cryptFn with
    | some cryptFn =>
      if scheme == "CRYPT" then .ok (cryptFn password (strTake 4 raw) == raw)
      else if scheme == "SSHA" then sshaCheck ext password raw
      else .ok false
    | none =>
      if scheme == "SSHA" then sshaCheck ext password raw
      else .ok false
  | none => .ok (value == password)

/-- `any(self._compare_password(value, candidate) for candidate in values)`:
lazy and short-circuiting, exceptions propagate. -/
def anyPassword (ext : ExtFns) (password : String) :
    List String → Except PyErr Bool
  | [] => .ok false
  | c :: cs =>
    match compare_password ext password c with
    | .error e => .error e
    | .ok true => .ok true
    | .ok false => anyPassword ext password cs

/-- `LDAPObject._compare_s`.  `validDn` models `ldap.dn.str2dn` succeeding on
its argument (`_check_valid_dn`). -/
def compare_s (validDn : String → Bool) (ext : ExtFns) (dir : Directory)
    (dn attr value : String) : Except PyErr Nat :=
  if validDn dn = false then .error .invalidDnSyntax
  else
    match cidictGet dir dn with
    | none => .error .noSuchObject
    | some entry =>
      let values := (dictGet entry attr).getD []
      if attr == "userPassword" then
        match anyPassword ext value values with
        | .error e => .error e
        | .ok b => .ok (if b then 1 else 0)
      else .ok (if values.contains value then 1 else 0)

/-- `LDAPObject.simple_bind_s`; `.ok (97, who)` carries both the bind-success
result code of `(97, [])` and the new `bound_as` session value. -/
def simple_bind_s (validDn : String → Bool) (ext : ExtFns) (dir : Directory)
    (who cred : String) : Except PyErr (Nat × String) :=
  let attempt : Except PyErr Bool :=
    if who == "" && cred == "" then .ok true
    else
      match compare_s validDn ext dir who "userPassword" cred with
      | .ok n => .ok (n != 0)
      | .error .noSuchObject => .ok false
      | .error e => .error e
  match attempt with
  | .error e => .error e
  | .ok true => .ok (97, who)
  | .ok false => .error (.invalidCredentials (who ++ ":" ++ cred))

/-- `ldap.SCOPE_BASE` / `SCOPE_ONELEVEL` / `SCOPE_SUBTREE`. -/
inductive Scope where
  | base
  | onelevel
  | subtree
deriving DecidableEq

/-- `LDAPObject._search_s`.  `explode` models `ldap.dn.explode_dn`; `parse`
models `.filter.parse` with `UnsupportedOp` already translated to the
`SeedRequired` escalation (any other parse failure propagates unchanged); a
parsed filter is its `matches(dn, attrs)` predicate. -/
def search_s (validDn : String → Bool) (explode : String → List String)
    (parse : String → Except PyErr (String → Entry → Bool))
    (dir : Directory) (base : String) (scope : Scope) (filterstr : String)
    (attrlist : Option (List String)) (attrsonly : Bool) :
    Except PyErr (List (String × Entry)) :=
  if validDn base = false then .error .invalidDnSyntax
  else if cidictContains dir base = false then .error .noSuchObject
  else
    let baseParts := explode (pyLower base)
    let baseLen := baseParts.length
    let keys := dir.map (fun p => p.1)
    let dns :=
      match scope with
      | .base => keys.filter (fun dn => explode (pyLower dn) == baseParts)
      | .onelevel => keys.filter (fun dn => (explode (pyLower dn)).tail == baseParts)
      | .subtree => keys.filter (fun dn =>
          let parts := explode (pyLower dn)
          (if baseLen == 0 then parts else parts.drop (parts.length - baseLen))
            == baseParts)
    match parse filterstr with
    | .error e => .error e
    | .ok matchesFn =>
      let results : List (String × Entry) :=
        (dns.filterMap (fun dn => (cidictGet dir dn).map (fun e => (dn, e)))).filter
          (fun p => matchesFn p.1 p.2)
      let results : List (String × Entry) :=
        match attrlist with
        | none => results
        | some al => results.map (fun p => (p.1, p.2.filter (fun q => al.contains q.1)))
      if attrsonly then
        .ok (results.map (fun p => (p.1, p.2.map (fun q => (q.1, ([] : List String))))))
      else .ok results

/-- A stored search result collection: `[(dn, attrs)]`. -/
abbrev SearchResults := List (String × Entry)

/-- `LDAPObject.async_results`: a cleared slot is `none` (Python `None`). -/
abbrev AsyncResults := List (Option SearchResults)

/-- `LDAPObject._add_async_result`: append and return the new index. -/
def add_async_result (s : AsyncResults) (value : SearchResults) :
    Nat × AsyncResults :=
  (s.length, s ++ [some value])

/-- `LDAPObject._pop_async_result`. -/
def pop_async_result (s : AsyncResults) (msgid : Nat) :
    Option SearchResults × AsyncResults :=
  match s.get? msgid with
  | some v => (v, s.set msgid none)
  | none => (none, s)

/-- `LDAPObject.result`: `(ldap.RES_SEARCH_RESULT, self._pop_async_result(msgid))`
with `ldap.RES_SEARCH_RESULT = 101`. -/
def result_method (s : AsyncResults) (msgid : Nat) :
    (Nat × Option SearchResults) × AsyncResults :=
  ((101, (pop_async_result s msgid).1), (pop_async_result s msgid).2)

/-- `ldap.MOD_ADD` / `ldap.MOD_DELETE` / `ldap.MOD_REPLACE`. -/
inductive ModOp where
  | modAdd
  | modDelete
  | modReplace
deriving DecidableEq

/-- One iteration of the `_modify_s` loop acting on the entry.  The `value`
normalization mirrors lines 296-299 (`None` becomes `[]`; the bare-scalar
wrap is a dynamic-typing case the embedding's types already rule out).  The
byte-string `isinstance` checks hold by construction, values being `String`s. -/
def applyModOp (entry : Entry) (op : ModOp) (key : String)
    (value : Option (List String)) : Except PyErr Entry :=
  let value := value.getD []
  match op with
  | .modAdd =>
    if value == [] then .error .protocolError
    else
      match dictGet entry key with
      | none => .ok (dictSet entry key value)
      | some cur =>
        .ok (dictSet entry key
          (value.foldl (fun acc sv => if acc.contains sv then acc else acc ++ [sv]) cur))
  | .modDelete =>
    match dictGet entry key with
    | none => .ok entry
    | some cur =>
      if value == [] then .ok (dictDel entry key)
      else
        let newvals := cur.filter (fun v => !(value.contains v))
        if newvals == [] then .ok (dictDel entry key)
        else .ok (dictSet entry key newvals)
  | .modReplace =>
    if value == [] then .ok (dictDel entry key)
    else .ok (dictSet entry key value)

/-- The `for item in mod_attrs` loop of `_modify_s`: the entry is re-fetched
from the store on every iteration, and a failing triple keeps the effects of
the earlier triples. -/
def modifyLoop (dir : Directory) (dn : String) :
    List (ModOp × String × Option (List String)) → Except PyErr Nat × Directory
  | [] => (.ok 103, dir)
  | (op, key, value) :: rest =>
    match cidictGet dir dn with
    | none => (.error .noSuchObject, dir)
    | some entry =>
      match applyModOp entry op key value with
      | .error e => (.error e, dir)
      | .ok entry' => modifyLoop (cidictSet dir dn entry') dn rest

/-- `LDAPObject._modify_s` (`103` stands for the `(103, [])` success tuple). -/
def modify_s (validDn : String → Bool) (dir : Directory) (dn : String)
    (mod_attrs : List (ModOp × String × Option (List String))) :
    Except PyErr Nat × Directory :=
  if validDn dn = false then (.error .invalidDnSyntax, dir)
  else modifyLoop dir dn mod_attrs

/-- The entry-building loop of `_add_s` (`entry[item[0]] = list(item[1])`). -/
def buildRecord (record : List (String × List String)) : Entry :=
  record.foldl (fun acc item => dictSet acc item.1 item.2) []

/-- `LDAPObject._add_s` (`105` stands for the `(105, ...)` success tuple). -/
def add_s (validDn : String → Bool) (dir : Directory) (dn : String)
    (record : List (String × List String)) : Except PyErr Nat × Directory :=
  if validDn dn = false then (.error .invalidDnSyntax, dir)
  else
    let entry := buildRecord record
    match cidictGet dir dn with
    | some _ => (.error .alreadyExists, dir)
    | none => (.ok 105, cidictSet dir dn entry)

/-- Python truthiness of the optional `newsuperior` argument. -/
def optTruthy : Option String → Bool
  | none => false
  | some s => !(s == "")

/-- The value under an optional argument (call sites guard on `optTruthy`). -/
def optVal : Option String → String
  | none => ""
  | some s => s

/-- Python `list.remove(v)`: drop the first occurrence, `ValueError` when the
value is absent. -/
def listRemove (v : String) : List String → Except PyErr (List String)
  | [] => .error .valueError
  | x :: rest =>
    if x == v then .ok rest
    else (listRemove v rest).map (fun l => x :: l)

/-- The `entry[oldattr].remove(oldvalue)` / `del entry[oldattr]` step of
`_rename_s` (guarded by `oldattr == newattr or len(entry[oldattr]) > 1`;
`entry[oldattr]` raising `KeyError` when absent). -/
def renameStep1 (entry : Entry) (oldattr oldvalue newattr : String) :
    Except PyErr Entry :=
  if oldattr == newattr then
    match dictGet entry oldattr with
    | none => .error .keyError
    | some l => (listRemove oldvalue l).map (fun l' => dictSet entry oldattr l')
  else
    match dictGet entry oldattr with
    | none => .error .keyError
    | some l =>
      if l.length > 1 then
        (listRemove oldvalue l).map (fun l' => dictSet entry oldattr l')
      else .ok (dictDel entry oldattr)

/-- The `newattr` append step of `_rename_s`: `entry[newattr].append(newvalue)`
unless already present, `entry[newattr] = [newvalue]` on `KeyError`. -/
def renameStep2 (entry1 : Entry) (newattr newvalue : String) : Entry :=
  match dictGet entry1 newattr with
  | some l =>
    if l.contains newvalue then entry1
    else dictSet entry1 newattr (l ++ [newvalue])
  | none => dictSet entry1 newattr [newvalue]

/-- `_rename_s` after the entry lookup: the `ALREADY_EXISTS` check for
`newfulldn`, the two RDN unpackings (`ValueError` unless exactly
`attr=value`), and the entry re-keying (`directory[newfulldn] = entry`
followed by `del directory[dn]`). -/
def renameCore (dir : Directory) (dn : String) (entry : Entry)
    (newrdn newfulldn : String) : Except PyErr Nat × Directory :=
  if cidictContains dir newfulldn then (.error .alreadyExists, dir)
  else
    match pySplit '=' ((pySplit ',' dn).headD "") with
    | [oldattr, oldvalue] =>
      match pySplit '=' newrdn with
      | [newattr, newvalue] =>
        match renameStep1 entry oldattr oldvalue newattr with
        | .error e => (.error e, dir)
        | .ok entry1 =>
          (.ok 109,
            cidictDel (cidictSet dir newfulldn (renameStep2 entry1 newattr newvalue)) dn)
      | _ => (.error .valueError, dir)
    | _ => (.error .valueError, dir)

/-- `LDAPObject._rename_s` (`109` stands for the `(109, [])` success tuple). -/
def rename_s (validDn : String → Bool) (dir : Directory) (dn newrdn : String)
    (newsuperior : Option String) : Except PyErr Nat × Directory :=
  if validDn dn = false then (.error .invalidDnSyntax, dir)
  else if validDn newrdn = false then (.error .invalidDnSyntax, dir)
  else if optTruthy newsuperior && (validDn (optVal newsuperior) == false) then
    (.error .invalidDnSyntax, dir)
  else
    match cidictGet dir dn with
    | none => (.error .noSuchObject, dir)
    | some entry =>
      let superior :=
        if optTruthy newsuperior then optVal newsuperior
        else joinComma (pySplit ',' dn).tail
      renameCore dir dn entry newrdn (newrdn ++ "," ++ superior)

/-- `LDAPObject._delete_s` (`107` stands for the `(107, [])` success tuple). -/
def delete_s (validDn : String → Bool) (dir : Directory) (dn : String) :
    Except PyErr Nat × Directory :=
  if validDn dn = false then (.error .invalidDnSyntax, dir)
  else if cidictContains dir dn then (.ok 107, cidictDel dir dn)
  else (.error .noSuchObject, dir)

/-- `LDAPObject._passwd_s` (the Python method returns `None`). -/
def passwd_s (validDn : String → Bool) (dir : Directory) (user : String)
    (oldpw : Option String) (newpw : String) : Except PyErr Unit × Directory :=
  if validDn user = false then (.error .invalidDnSyntax, dir)
  else
    match cidictGet dir user with
    | none => (.error .noSuchObject, dir)
    | some entry =>
      match oldpw with
      | some old =>
        match dictGet entry "userPassword" with
        | none => (.error .keyError, dir)
        | some [] => (.error .indexError, dir)
        | some (v :: _) =>
          if v == old then
            (.ok (), cidictSet dir user (dictSet entry "userPassword" [newpw]))
          else (.ok (), dir)
      | none => (.ok (), cidictSet dir user (dictSet entry "userPassword" [newpw]))

/-! ### Association-list and list lemmas -/

theorem dictGet_pred {α : Type} (P : α → Prop) :
    ∀ {d : List (String × α)} {k : String} {v : α},
      (∀ p ∈ d, P p.2) → dictGet d k = some v → P v := by
  intro d
  induction d with
  | nil => intro k v _ h; cases h
  | cons a rest ih =>
    intro k v hd h
    obtain ⟨k', v'⟩ := a
    unfold dictGet at h
    by_cases hk : (k' == k) = true
    · rw [if_pos hk] at h
      injection h with hv
      rw [← hv]
      exact hd (k', v') (List.mem_cons_self _ _)
    · rw [if_neg hk] at h
      exact ih (fun p hp => hd p (List.mem_cons_of_mem _ hp)) h

theorem mem_dictSet {α : Type} {k : String} {v : α} :
    ∀ {d : List (String × α)} {p : String × α},
      p ∈ dictSet d k v → p ∈ d ∨ p = (k, v) := by
  intro d
  induction d with
  | nil =>
    intro p h
    simp only [dictSet, List.mem_singleton] at h
    exact Or.inr h
  | cons a rest ih =>
    intro p h
    obtain ⟨k', v'⟩ := a
    unfold dictSet at h
    by_cases hk : (k' == k) = true
    · rw [if_pos hk] at h
      rcases List.mem_cons.mp h with h1 | h1
      · right
        rw [h1, show k' = k from by simpa using hk]
      · exact Or.inl (List.mem_cons_of_mem _ h1)
    · rw [if_neg hk] at h
      rcases List.mem_cons.mp h with h1 | h1
      · exact Or.inl (h1 ▸ List.mem_cons_self _ _)
      · rcases ih h1 with h2 | h2
        · exact Or.inl (List.mem_cons_of_mem _ h2)
        · exact Or.inr h2

theorem mem_dictDel {α : Type} {k : String} :
    ∀ {d : List (String × α)} {p : String × α}, p ∈ dictDel d k → p ∈ d := by
  intro d
  induction d with
  | nil => intro p h; cases h
  | cons a rest ih =>
    intro p h
    obtain ⟨k', v'⟩ := a
    unfold dictDel at h
    by_cases hk : (k' == k) = true
    · rw [if_pos hk] at h
      exact List.mem_cons_of_mem _ h
    · rw [if_neg hk] at h
      rcases List.mem_cons.mp h with h1 | h1
      · exact h1 ▸ List.mem_cons_self _ _
      · exact List.mem_cons_of_mem _ (ih h1)

theorem dictGet_dictSet {α : Type} (k : String) (v : α) :
    ∀ d : List (String × α), dictGet (dictSet d k v) k = some v := by
  intro d
  induction d with
  | nil => simp [dictSet, dictGet]
  | cons a rest ih =>
    obtain ⟨k', v'⟩ := a
    by_cases hk : (k' == k) = true
    · simp [dictSet, dictGet, hk]
    · simp [dictSet, dictGet, hk, ih]

theorem dictSet_dictSet {α : Type} (k : String) (a b : α) :
    ∀ d : List (String × α), dictSet (dictSet d k a) k b = dictSet d k b := by
  intro d
  induction d with
  | nil => simp [dictSet]
  | cons p rest ih =>
    obtain ⟨k', v'⟩ := p
    by_cases hk : (k' == k) = true
    · simp [dictSet, hk]
    · simp [dictSet, hk, ih]

theorem listRemove_length {v : String} :
    ∀ {l l' : List String}, listRemove v l = .ok l' → l'.length + 1 = l.length := by
  intro l
  induction l with
  | nil => intro l' h; cases h
  | cons x rest ih =>
    intro l' h
    unfold listRemove at h
    by_cases hx : (x == v) = true
    · rw [if_pos hx] at h
      cases h
      rfl
    · rw [if_neg hx] at h
      cases hr : listRemove v rest with
      | error e => rw [hr] at h; cases h
      | ok t =>
        rw [hr] at h
        simp only [Except.map] at h
        cases h
        simp [← ih hr]

theorem contains_ne_nil {l : List String} {x : String}
    (h : l.contains x = true) : l ≠ [] := by
  intro he
  rw [he] at h
  simp at h

theorem ne_nil_of_beq_false {l : List String}
    (h : (l == ([] : List String)) = false) : l ≠ [] := by
  intro he
  rw [he] at h
  simp at h

/-! ### Store-invariant lemmas (no attribute ever holds an empty value list) -/

/-- The spec's entry invariant: no attribute is present with `[]`. -/
abbrev EntryOk (e : Entry) : Prop := ∀ p ∈ e, p.2 ≠ []

/-- The spec's store invariant: every entry satisfies `EntryOk`. -/
abbrev DirOk (d : Directory) : Prop := ∀ p ∈ d, EntryOk p.2

theorem entryOk_dictSet {e : Entry} {k : String} {vs : List String}
    (he : EntryOk e) (hvs : vs ≠ []) : EntryOk (dictSet e k vs) := by
  intro p hp
  rcases mem_dictSet hp with h | h
  · exact he p h
  · rw [h]
    exact hvs

theorem entryOk_dictDel {e : Entry} {k : String} (he : EntryOk e) :
    EntryOk (dictDel e k) :=
  fun p hp => he p (mem_dictDel hp)

theorem dirOk_cidictSet {dir : Directory} {k : String} {e : Entry}
    (hd : DirOk dir) (he : EntryOk e) : DirOk (cidictSet dir k e) := by
  intro p hp
  rcases mem_dictSet hp with h | h
  · exact hd p h
  · rw [h]
    exact he

theorem dirOk_cidictDel {dir : Directory} {k : String} (hd : DirOk dir) :
    DirOk (cidictDel dir k) :=
  fun p hp => hd p (mem_dictDel hp)

theorem dirOk_cidictGet {dir : Directory} {k : String} {e : Entry}
    (hd : DirOk dir) (h : cidictGet dir k = some e) : EntryOk e :=
  dictGet_pred EntryOk hd h

theorem foldl_addvals_ne_nil :
    ∀ (value cur : List String), cur ≠ [] →
      value.foldl (fun acc sv => if acc.contains sv then acc else acc ++ [sv]) cur ≠ [] := by
  intro value
  induction value with
  | nil => intro cur h; exact h
  | cons a t ih =>
    intro cur h
    simp only [List.foldl]
    by_cases hc : (cur.contains a) = true
    · rw [if_pos hc]
      exact ih cur h
    · rw [if_neg hc]
      exact ih _ (by simp)

theorem entryOk_applyModOp {entry entry' : Entry} {op : ModOp} {key : String}
    {value : Option (List String)} (he : EntryOk entry)
    (h : applyModOp entry op key value = .ok entry') : EntryOk entry' := by
  unfold applyModOp at h
  cases op with
  | modAdd =>
    by_cases hv : (value.getD [] == ([] : List String)) = true
    · simp only [hv, if_true] at h
      cases h
    · simp only [hv, Bool.false_eq_true, if_false] at h
      cases hg : dictGet entry key with
      | none =>
        rw [hg] at h
        cases h
        exact entryOk_dictSet he (ne_nil_of_beq_false (by simpa using hv))
      | some cur =>
        rw [hg] at h
        cases h
        exact entryOk_dictSet he
          (foldl_addvals_ne_nil _ _ (dictGet_pred (fun l => l ≠ []) he hg))
  | modDelete =>
    cases hg : dictGet entry key with
    | none =>
      rw [hg] at h
      cases h
      exact he
    | some cur =>
      rw [hg] at h
      by_cases hv : (value.getD [] == ([] : List String)) = true
      · simp only [hv, if_true] at h
        cases h
        exact entryOk_dictDel he
      · simp only [hv, Bool.false_eq_true, if_false] at h
        by_cases hn : (cur.filter (fun v => !((value.getD []).contains v)) == ([] : List String)) = true
        · simp only [hn, if_true] at h
          cases h
          exact entryOk_dictDel he
        · simp only [hn, Bool.false_eq_true, if_false] at h
          cases h
          exact entryOk_dictSet he (ne_nil_of_beq_false (by simpa using hn))
  | modReplace =>
    by_cases hv : (value.getD [] == ([] : List String)) = true
    · simp only [hv, if_true] at h
      cases h
      exact entryOk_dictDel he
    · simp only [hv, Bool.false_eq_true, if_false] at h
      cases h
      exact entryOk_dictSet he (ne_nil_of_beq_false (by simpa using hv))

theorem dirOk_modifyLoop (dn : String) :
    ∀ (mods : List (ModOp × String × Option (List String))) (dir : Directory),
      DirOk dir → DirOk (modifyLoop dir dn mods).2 := by
  intro mods
  induction mods with
  | nil => intro dir hd; exact hd
  | cons t rest ih =>
    intro dir hd
    obtain ⟨op, key, value⟩ := t
    unfold modifyLoop
    cases hg : cidictGet dir dn with
    | none => exact hd
    | some entry =>
      cases ha : applyModOp entry op key value with
      | error e => simp only [ha]; exact hd
      | ok entry' =>
        simp only [ha]
        exact ih _ (dirOk_cidictSet hd (entryOk_applyModOp (dirOk_cidictGet hd hg) ha))

theorem dirOk_modify_s (validDn : String → Bool) (dir : Directory) (dn : String)
    (mod_attrs : List (ModOp × String × Option (List String))) (hd : DirOk dir) :
    DirOk (modify_s validDn dir dn mod_attrs).2 := by
  unfold modify_s
  by_cases hv : validDn dn = false
  · rw [if_pos hv]
    exact hd
  · rw [if_neg hv]
    exact dirOk_modifyLoop dn mod_attrs dir hd

theorem entryOk_renameStep2 {entry1 : Entry} {newattr newvalue : String}
    (he : EntryOk entry1) : EntryOk (renameStep2 entry1 newattr newvalue) := by
  unfold renameStep2
  split
  · split
    · exact he
    · exact entryOk_dictSet he (by simp)
  · exact entryOk_dictSet he (by simp)

theorem entryOk_renameSteps {entry entry1 : Entry} {oa ov na nv : String}
    (he : EntryOk entry) (h : renameStep1 entry oa ov na = .ok entry1) :
    EntryOk (renameStep2 entry1 na nv) := by
  unfold renameStep1 at h
  by_cases hk : (oa == na) = true
  · rw [if_pos hk] at h
    split at h
    · cases h
    · rename_i l hg
      cases hr : listRemove ov l with
      | error e => rw [hr] at h; cases h
      | ok l' =>
        rw [hr] at h
        simp only [Except.map] at h
        cases h
        have hoa : oa = na := by simpa using hk
        subst hoa
        unfold renameStep2
        simp only [dictGet_dictSet]
        by_cases hc : (l'.contains nv) = true
        · rw [if_pos hc]
          exact entryOk_dictSet he (contains_ne_nil hc)
        · rw [if_neg hc]
          rw [dictSet_dictSet]
          exact entryOk_dictSet he (by simp)
  · rw [if_neg hk] at h
    split at h
    · cases h
    · rename_i l hg
      by_cases hl : l.length > 1
      · rw [if_pos hl] at h
        cases hr : listRemove ov l with
        | error e => rw [hr] at h; cases h
        | ok l' =>
          rw [hr] at h
          simp only [Except.map] at h
          cases h
          have hne : l' ≠ [] := by
            have hlen := listRemove_length hr
            intro hnil
            rw [hnil] at hlen
            simp at hlen
            omega
          exact entryOk_renameStep2 (entryOk_dictSet he hne)
      · rw [if_neg hl] at h
        cases h
        exact entryOk_renameStep2 (entryOk_dictDel he)

theorem dirOk_renameCore (dir : Directory) (dn : String) (entry : Entry)
    (newrdn newfulldn : String) (hd : DirOk dir) (he : EntryOk entry) :
    DirOk (renameCore dir dn entry newrdn newfulldn).2 := by
  unfold renameCore
  split
  · exact hd
  split
  · split
    · split
      · exact hd
      · rename_i entry1 hs
        exact dirOk_cidictDel (dirOk_cidictSet hd (entryOk_renameSteps he hs))
    · exact hd
  · exact hd

theorem dirOk_rename_s (validDn : String → Bool) (dir : Directory)
    (dn newrdn : String) (newsuperior : Option String) (hd : DirOk dir) :
    DirOk (rename_s validDn dir dn newrdn newsuperior).2 := by
  unfold rename_s
  split
  · exact hd
  split
  · exact hd
  split
  · exact hd
  split
  · exact hd
  · rename_i entry hg
    exact dirOk_renameCore dir dn entry newrdn _ hd (dirOk_cidictGet hd hg)

theorem dirOk_passwd_s (validDn : String → Bool) (dir : Directory)
    (user : String) (oldpw : Option String) (newpw : String) (hd : DirOk dir) :
    DirOk (passwd_s validDn dir user oldpw newpw).2 := by
  unfold passwd_s
  split
  · exact hd
  split
  · exact hd
  · rename_i entry hg
    have he : EntryOk entry := dirOk_cidictGet hd hg
    split
    · split
      · exact hd
      · exact hd
      · split
        · exact dirOk_cidictSet hd (entryOk_dictSet he (by simp))
        · exact hd
    · exact dirOk_cidictSet hd (entryOk_dictSet he (by simp))

theorem dirOk_delete_s (validDn : String → Bool) (dir : Directory)
    (dn : String) (hd : DirOk dir) : DirOk (delete_s validDn dir dn).2 := by
  unfold delete_s
  split
  · exact hd
  split
  · exact dirOk_cidictDel hd
  · exact hd

theorem entryOk_foldl_dictSet :
    ∀ (record : List (String × List String)),
      (∀ p ∈ record, p.2 ≠ []) →
      ∀ init : Entry, EntryOk init →
        EntryOk (record.foldl (fun acc item => dictSet acc item.1 item.2) init) := by
  intro record
  induction record with
  | nil => intro _ init hi; exact hi
  | cons a rest ih =>
    intro h init hi
    simp only [List.foldl]
    exact ih (fun p hp => h p (List.mem_cons_of_mem _ hp)) _
      (entryOk_dictSet hi (h a (List.mem_cons_self _ _)))

theorem dirOk_add_s (validDn : String → Bool) (dir : Directory) (dn : String)
    (record : List (String × List String)) (hd : DirOk dir)
    (hr : ∀ p ∈ record, p.2 ≠ []) : DirOk (add_s validDn dir dn record).2 := by
  unfold add_s
  split
  · exact hd
  · cases hg : cidictGet dir dn with
    | some e => exact hd
    | none =>
      exact dirOk_cidictSet hd (entryOk_foldl_dictSet record hr [] (by simp [EntryOk]))

/-! ### Async-result lemmas -/

theorem get?_append_right_length {α : Type} (v : α) :
    ∀ s : List α, (s ++ [v]).get? s.length = some v := by
  intro s
  induction s with
  | nil => rfl
  | cons a t ih => simp [ih]

theorem get?_len_le {α : Type} :
    ∀ (s : List α) (m : Nat), s.length ≤ m → s.get? m = none := by
  intro s
  induction s with
  | nil => intro m _; cases m <;> rfl
  | cons a t ih =>
    intro m h
    cases m with
    | zero => simp at h
    | succ m' => simpa using ih m' (by simpa using h)

theorem get?_set_self {α : Type} (a : α) :
    ∀ (s : List α) (t : Nat), t < s.length → (s.set t a).get? t = some a := by
  intro s
  induction s with
  | nil => intro t h; simp at h
  | cons x rest ih =>
    intro t h
    cases t with
    | zero => rfl
    | succ t' => simpa using ih t' (by simpa using h)

theorem get?_set_ne {α : Type} (a : α) :
    ∀ (s : List α) (m t : Nat), m ≠ t → (s.set m a).get? t = s.get? t := by
  intro s
  induction s with
  | nil => intro m t _; simp
  | cons x rest ih =>
    intro m t hne
    cases m with
    | zero =>
      cases t with
      | zero => exact absurd rfl hne
      | succ t' => rfl
    | succ m' =>
      cases t with
      | zero => rfl
      | succ t' => simpa using ih m' t' (fun he => hne (by rw [he]))

theorem get?_append_left_lt {α : Type} (l : List α) :
    ∀ (s : List α) (t : Nat), t < s.length → (s ++ l).get? t = s.get? t := by
  intro s
  induction s with
  | nil => intro t h; simp at h
  | cons x rest ih =>
    intro t h
    cases t with
    | zero => rfl
    | succ t' => simpa using ih t' (by simpa using h)

/-- The two operations of the emulator that touch `async_results`: issuing a
search (`search` calling `_add_async_result`) and fetching a result (`result`
calling `_pop_async_result`). -/
inductive AsyncStep : AsyncResults → AsyncResults → Prop
  | issue (s : AsyncResults) (v : SearchResults) : AsyncStep s (add_async_result s v).2
  | fetch (s : AsyncResults) (m : Nat) : AsyncStep s (pop_async_result s m).2

/-- Slot `t` holds Python `None`. -/
abbrev ClearedAt (s : AsyncResults) (t : Nat) : Prop := s.get? t = some none

theorem clearedAt_lt_length {s : AsyncResults} {t : Nat} (hc : ClearedAt s t) :
    t < s.length := by
  by_contra hge
  have hc' : s.get? t = some none := hc
  rw [get?_len_le s t (Nat.le_of_not_lt hge)] at hc'
  cases hc'

theorem clearedAt_step {s s' : AsyncResults} {t : Nat}
    (hc : ClearedAt s t) (h : AsyncStep s s') : ClearedAt s' t := by
  cases h with
  | issue v =>
    unfold add_async_result
    show (s ++ [some v]).get? t = some none
    rw [get?_append_left_lt _ _ _ (clearedAt_lt_length hc)]
    exact hc
  | fetch m =>
    unfold pop_async_result
    cases hg : s.get? m with
    | none => exact hc
    | some v =>
      show (s.set m none).get? t = some none
      by_cases hm : m = t
      · rw [hm, get?_set_self _ _ _ (clearedAt_lt_length hc)]
      · rw [get?_set_ne _ _ _ _ hm]
        exact hc

theorem clearedAt_steps {s s' : AsyncResults} {t : Nat}
    (h : Relation.ReflTransGen AsyncStep s s') (hc : ClearedAt s t) :
    ClearedAt s' t := by
  induction h with
  | refl => exact hc
  | tail _ hstep ih => exact clearedAt_step ih hstep

theorem pop_cleared {s : AsyncResults} {t : Nat} (hc : ClearedAt s t) :
    (pop_async_result s t).1 = none := by
  unfold pop_async_result
  rw [hc]

theorem cidictGet_eq_none {dir : Directory} {k : String}
    (h : cidictContains dir k = false) : cidictGet dir k = none := by
  cases ho : cidictGet dir k with
  | none => rfl
  | some e =>
    exfalso
    have hs : (cidictGet dir k).isSome = false := h
    rw [ho] at hs
    cases hs

theorem cidictGet_eq_some {dir : Directory} {k : String}
    (h : cidictContains dir k = true) : ∃ e, cidictGet dir k = some e := by
  cases ho : cidictGet dir k with
  | some e => exact ⟨e, rfl⟩
  | none =>
    exfalso
    have hs : (cidictGet dir k).isSome = true := h
    rw [ho] at hs
    cases hs

/-- An arbitrary concrete instantiation of the external collaborators
(`crypt` unavailable, trivial `b64decode` and `sha1`), used for concrete
evaluations. -/
def trivExt : ExtFns := ⟨none, fun _ => .ok "", fun _ => ""⟩

/-! ### Claim theorems -/

/-- C1: for every syntactically valid base DN absent from the store, every
scope and every filter string, the search operation fails `NoSuchObject`.
The statement quantifies over every filter parser `parse`, so the failure is
independent of filter parsing and evaluation — it happens even for filters
that are unsupported or that would match no entry. -/
theorem search_absent_base_fails_noSuchObject
    (validDn : String → Bool) (explode : String → List String)
    (parse : String → Except PyErr (String → Entry → Bool))
    (dir : Directory) (base : String) (scope : Scope) (filterstr : String)
    (attrlist : Option (List String)) (attrsonly : Bool)
    (hvalid : validDn base = true) (habsent : cidictContains dir base = false) :
    search_s validDn explode parse dir base scope filterstr attrlist attrsonly
      = .error .noSuchObject := by
  unfold search_s
  rw [hvalid, habsent]
  rfl

/-- Witness for C1: empty store, concrete base, a parser that always fails. -/
theorem search_absent_base_fails_noSuchObject_witness :
    search_s (fun _ => true) (fun _ => []) (fun _ => .error .seedRequired) []
      "dc=example,dc=com" .base "(cn~=smith)" none false
      = .error .noSuchObject :=
  search_absent_base_fails_noSuchObject (fun _ => true) (fun _ => [])
    (fun _ => .error .seedRequired) [] "dc=example,dc=com" .base "(cn~=smith)"
    none false rfl rfl

/-- C5 (amended): the modify operation fails `NoSuchObject` on every
syntactically valid DN absent from the store for every NON-EMPTY list of
modification triples; with the empty list the per-triple loop never runs, so
the existence check is skipped (see the counterexample). -/
theorem modify_absent_dn_fails_noSuchObject (validDn : String → Bool)
    (dir : Directory) (dn : String)
    (mod_attrs : List (ModOp × String × Option (List String)))
    (hvalid : validDn dn = true) (habsent : cidictContains dir dn = false)
    (hne : mod_attrs ≠ []) :
    modify_s validDn dir dn mod_attrs = (.error .noSuchObject, dir) := by
  have hnone := cidictGet_eq_none habsent
  unfold modify_s
  rw [hvalid]
  cases mod_attrs with
  | nil => exact absurd rfl hne
  | cons t rest =>
    obtain ⟨op, key, value⟩ := t
    unfold modifyLoop
    rw [hnone]
    rfl

/-- Witness for the amended C5. -/
theorem modify_absent_dn_fails_noSuchObject_witness :
    modify_s (fun _ => true) [] "cn=missing,dc=example,dc=com"
      [(.modAdd, "cn", some ["x"])] = (.error .noSuchObject, []) :=
  modify_absent_dn_fails_noSuchObject (fun _ => true) []
    "cn=missing,dc=example,dc=com" [(.modAdd, "cn", some ["x"])] rfl rfl
    (by decide)

/-- C5 counterexample: with the EMPTY modification list, modify on a valid DN
absent from the store returns the `(103, [])` success value instead of
failing `NoSuchObject`. -/
theorem modify_empty_mods_absent_dn_succeeds :
    cidictContains [] "cn=missing,dc=example,dc=com" = false
    ∧ modify_s (fun _ => true) [] "cn=missing,dc=example,dc=com" []
        = (.ok 103, []) :=
  ⟨rfl, rfl⟩

/-- C6: the add operation's existence check is case-insensitive — adding
under a DN that differs from a stored entry's DN only in letter case fails
`AlreadyExists`, and adding under a DN not present case-insensitively inserts
the new entry. -/
theorem add_case_insensitive_existence (validDn : String → Bool)
    (dir : Directory) (dn dn' : String) (record : List (String × List String))
    (hvalid : validDn dn' = true) (hcase : pyLower dn' = pyLower dn) :
    (cidictContains dir dn = true →
      add_s validDn dir dn' record = (.error .alreadyExists, dir))
    ∧ (cidictContains dir dn = false →
      add_s validDn dir dn' record
        = (.ok 105, cidictSet dir dn' (buildRecord record))) := by
  have hgets : cidictGet dir dn' = cidictGet dir dn := by
    unfold cidictGet
    rw [hcase]
  constructor
  · intro hc
    obtain ⟨e, he⟩ := cidictGet_eq_some hc
    unfold add_s
    rw [hvalid, hgets, he]
    rfl
  · intro hc
    have hnone := cidictGet_eq_none hc
    unfold add_s
    rw [hvalid, hgets, hnone]
    rfl

/-- Witness for C6: `CN=A` collides with stored `cn=a`; insertion into the
empty store succeeds. -/
theorem add_case_insensitive_existence_witness :
    add_s (fun _ => true) [("cn=a", [("cn", ["x"])])] "CN=A" [("cn", ["y"])]
        = (.error .alreadyExists, [("cn=a", [("cn", ["x"])])])
    ∧ add_s (fun _ => true) [] "CN=A" [("cn", ["y"])]
        = (.ok 105, [("cn=a", [("cn", ["y"])])]) := by
  constructor
  · exact (add_case_insensitive_existence (fun _ => true)
      [("cn=a", [("cn", ["x"])])] "cn=a" "CN=A" [("cn", ["y"])] rfl
      (by decide)).1 rfl
  · have h := (add_case_insensitive_existence (fun _ => true) [] "cn=a" "CN=A"
      [("cn", ["y"])] rfl (by decide)).2 rfl
    rw [h]
    rfl

/-- C7: renaming `cn=alice,dc=example,dc=com` (with `cn = [alice, al]`) to
new RDN `cn=al` and no new parent re-keys the entry at
`cn=al,dc=example,dc=com`, removes `alice` from `cn`, does not duplicate
`al`, and removes the old DN key. -/
theorem rename_alice_scenario (validDn : String → Bool)
    (h1 : validDn "cn=alice,dc=example,dc=com" = true)
    (h2 : validDn "cn=al" = true) :
    rename_s validDn [("cn=alice,dc=example,dc=com", [("cn", ["alice", "al"])])]
        "cn=alice,dc=example,dc=com" "cn=al" none
      = (.ok 109, [("cn=al,dc=example,dc=com", [("cn", ["al"])])]) := by
  unfold rename_s
  rw [h1, h2]
  rfl

/-- Witness for C7. -/
theorem rename_alice_scenario_witness :
    rename_s (fun _ => true)
        [("cn=alice,dc=example,dc=com", [("cn", ["alice", "al"])])]
        "cn=alice,dc=example,dc=com" "cn=al" none
      = (.ok 109, [("cn=al,dc=example,dc=com", [("cn", ["al"])])]) :=
  rename_alice_scenario (fun _ => true) rfl rfl

/-- C2: issuing a search stores the full result collection behind a fresh
ticket; the first fetch on that ticket returns it (with result code 101) and
clears the slot; after that, no matter which further searches and fetches
run, every fetch on the same ticket returns the "no data" result, and a
fetch on a ticket index that was never issued returns "no data" leaving the
queue unchanged — never an error. -/
theorem async_ticket_single_consumption (s : AsyncResults) (v : SearchResults) :
    (result_method (add_async_result s v).2 (add_async_result s v).1
      = ((101, some v), ((add_async_result s v).2).set (add_async_result s v).1 none))
    ∧ (∀ s₂, Relation.ReflTransGen AsyncStep
          (((add_async_result s v).2).set (add_async_result s v).1 none) s₂ →
        (result_method s₂ (add_async_result s v).1).1 = (101, none))
    ∧ (∀ s' m, s'.length ≤ m → result_method s' m = ((101, none), s')) := by
  have hpop : pop_async_result (s ++ [some v]) s.length
      = (some v, (s ++ [some v]).set s.length none) := by
    unfold pop_async_result
    rw [get?_append_right_length]
  refine ⟨?_, ?_, ?_⟩
  · show result_method (s ++ [some v]) s.length
      = ((101, some v), (s ++ [some v]).set s.length none)
    unfold result_method
    rw [hpop]
  · intro s₂ hsteps
    have hc0 : ClearedAt ((s ++ [some v]).set s.length none) s.length :=
      get?_set_self none (s ++ [some v]) s.length (by simp)
    have hc2 : ClearedAt s₂ s.length := clearedAt_steps hsteps hc0
    show (result_method s₂ s.length).1 = (101, none)
    unfold result_method
    rw [pop_cleared hc2]
  · intro s' m hm
    unfold result_method pop_async_result
    rw [get?_len_le s' m hm]

/-- Witness for C2 at a concrete queue: first fetch yields the collection,
the fetch after clearing yields no data, and an unissued ticket yields no
data. -/
theorem async_ticket_single_consumption_witness :
    result_method [some [("cn=a", [("cn", ["x"])])]] 0
        = ((101, some [("cn=a", [("cn", ["x"])])]), [none])
    ∧ (result_method [none] 0).1 = (101, none)
    ∧ result_method [] 3 = ((101, none), []) := by
  have h := async_ticket_single_consumption [] [("cn=a", [("cn", ["x"])])]
  exact ⟨h.1, h.2.1 [none] Relation.ReflTransGen.refl, h.2.2 [] 3 (by decide)⟩

/-- C3: anonymous simple bind (empty identity and credential) succeeds on
every directory state; a non-anonymous bind whose identity DN is absent from
the store, or whose credential compare returns 0, fails `InvalidCredentials`
(the absent DN is never propagated as `NoSuchObject`); when the compare
succeeds, the bind returns the success code 97 and sets `bound_as` to the
supplied identity. -/
theorem simple_bind_semantics (validDn : String → Bool) (ext : ExtFns)
    (dir : Directory) (who cred : String) (hvalid : validDn who = true) :
    (simple_bind_s validDn ext dir "" "" = .ok (97, ""))
    ∧ ((who == "" && cred == "") = false → cidictGet dir who = none →
        simple_bind_s validDn ext dir who cred
          = .error (.invalidCredentials (who ++ ":" ++ cred)))
    ∧ ((who == "" && cred == "") = false →
        compare_s validDn ext dir who "userPassword" cred = .ok 0 →
        simple_bind_s validDn ext dir who cred
          = .error (.invalidCredentials (who ++ ":" ++ cred)))
    ∧ (compare_s validDn ext dir who "userPassword" cred = .ok 1 →
        simple_bind_s validDn ext dir who cred = .ok (97, who)) := by
  refine ⟨rfl, ?_, ?_, ?_⟩
  · intro hanon habsent
    have hcmp : compare_s validDn ext dir who "userPassword" cred
        = .error .noSuchObject := by
      unfold compare_s
      rw [hvalid, habsent]
      rfl
    unfold simple_bind_s
    rw [hanon, hcmp]
    rfl
  · intro hanon hcmp
    unfold simple_bind_s
    rw [hanon, hcmp]
    rfl
  · intro hcmp
    unfold simple_bind_s
    cases hb : who == "" && cred == "" with
    | true => rfl
    | false =>
      rw [hcmp]
      rfl

/-- Witness for C3: anonymous bind on the empty store; absent DN; failing
compare; succeeding compare. -/
theorem simple_bind_semantics_witness :
    simple_bind_s (fun _ => true) trivExt [] "" "" = .ok (97, "")
    ∧ simple_bind_s (fun _ => true) trivExt [] "cn=a" "pw"
        = .error (.invalidCredentials "cn=a:pw")
    ∧ simple_bind_s (fun _ => true) trivExt
        [("cn=a", [("userPassword", ["right"])])] "cn=a" "wrong"
        = .error (.invalidCredentials "cn=a:wrong")
    ∧ simple_bind_s (fun _ => true) trivExt
        [("cn=a", [("userPassword", ["right"])])] "cn=a" "right"
        = .ok (97, "cn=a") := by
  have h1 := simple_bind_semantics (fun _ => true) trivExt [] "cn=a" "pw" rfl
  have h2 := simple_bind_semantics (fun _ => true) trivExt
    [("cn=a", [("userPassword", ["right"])])] "cn=a" "wrong" rfl
  have h3 := simple_bind_semantics (fun _ => true) trivExt
    [("cn=a", [("userPassword", ["right"])])] "cn=a" "right" rfl
  exact ⟨h1.1, h1.2.1 (by decide) rfl, h2.2.2.1 (by decide) rfl,
    h3.2.2.2 rfl⟩

/-- C4 (amended): starting from a store in which no attribute of any entry
holds an empty value list, the invariant is preserved by modify, delete,
rename and password-change (any operation that removes the last value of an
attribute removes the attribute key entirely), and by add whenever the
supplied record contains no empty value list.  Add with an explicit empty
value list violates the invariant — see the counterexample. -/
theorem operations_preserve_no_empty_attribute
    (validDn : String → Bool) (dir : Directory)
    (dn newrdn : String) (newsuperior : Option String)
    (mod_attrs : List (ModOp × String × Option (List String)))
    (user : String) (oldpw : Option String) (newpw : String)
    (record : List (String × List String)) (hdir : DirOk dir) :
    DirOk (modify_s validDn dir dn mod_attrs).2
    ∧ DirOk (delete_s validDn dir dn).2
    ∧ DirOk (rename_s validDn dir dn newrdn newsuperior).2
    ∧ DirOk (passwd_s validDn dir user oldpw newpw).2
    ∧ ((∀ p ∈ record, p.2 ≠ []) → DirOk (add_s validDn dir dn record).2) :=
  ⟨dirOk_modify_s validDn dir dn mod_attrs hdir,
   dirOk_delete_s validDn dir dn hdir,
   dirOk_rename_s validDn dir dn newrdn newsuperior hdir,
   dirOk_passwd_s validDn dir user oldpw newpw hdir,
   fun hr => dirOk_add_s validDn dir dn record hdir hr⟩

/-- Witness for the amended C4 at a concrete store and arguments. -/
theorem operations_preserve_no_empty_attribute_witness :
    DirOk (modify_s (fun _ => true) [("cn=a", [("cn", ["x"])])] "cn=a"
        [(.modDelete, "cn", some ["x"])]).2
    ∧ DirOk (delete_s (fun _ => true) [("cn=a", [("cn", ["x"])])] "cn=a").2
    ∧ DirOk (rename_s (fun _ => true) [("cn=a", [("cn", ["x"])])] "cn=a"
        "cn=y" none).2
    ∧ DirOk (passwd_s (fun _ => true) [("cn=a", [("cn", ["x"])])] "cn=a"
        none "pw").2
    ∧ ((∀ p ∈ [("cn", ["y"])], p.2 ≠ ([] : List String)) →
        DirOk (add_s (fun _ => true) [("cn=a", [("cn", ["x"])])] "cn=a"
          [("cn", ["y"])]).2) :=
  operations_preserve_no_empty_attribute (fun _ => true)
    [("cn=a", [("cn", ["x"])])] "cn=a" "cn=y" none
    [(.modDelete, "cn", some ["x"])] "cn=a" none "pw" [("cn", ["y"])]
    (by decide)

/-- C4 counterexample: starting from a store satisfying the invariant,
`add_s` with a record holding an empty value list creates an attribute whose
value list is empty, so the invariant does NOT hold after every add. -/
theorem add_empty_value_list_breaks_invariant :
    DirOk ([] : Directory)
    ∧ add_s (fun _ => true) [] "cn=a" [("cn", [])]
        = (.ok 105, [("cn=a", [("cn", [])])])
    ∧ ¬ DirOk [("cn=a", [("cn", ([] : List String))])] := by
  refine ⟨by simp, rfl, ?_⟩
  intro h
  exact h ("cn=a", [("cn", [])]) (by simp) ("cn", []) (by simp) rfl

/-- C8 (amended): when a stored credential value does not match the
`\x7bscheme\x7drest` tag pattern at all, the password verifier falls back to
plain literal string equality; but a value carrying a tag that is neither
`CRYPT` nor `SSHA` never matches any candidate — it is not compared
literally. -/
theorem compare_password_fallback (ext : ExtFns) (password value : String) :
    (reTagMatch value.data = none →
      compare_password ext password value = .ok (value == password))
    ∧ (∀ sch raw, reTagMatch value.data = some (sch, raw) →
        (String.mk sch == "CRYPT") = false → (String.mk sch == "SSHA") = false →
        compare_password ext password value = .ok false) := by
  constructor
  · intro h
    unfold compare_password
    rw [h]
  · intro sch raw h h1 h2
    unfold compare_password
    rw [h]
    cases hc : ext.cryptFn with
    | none => simp only [h2, Bool.false_eq_true, if_false]
    | some cryptFn => simp only [h1, h2, Bool.false_eq_true, if_false]

/-- Witness for the amended C8: an untagged value compares literally; an
`MD5`-tagged value never matches. -/
theorem compare_password_fallback_witness :
    compare_password trivExt "pw" "pw" = .ok true
    ∧ compare_password trivExt "x" "\x7bMD5\x7dy" = .ok false := by
  constructor
  · have h := (compare_password_fallback trivExt "pw" "pw").1 rfl
    rw [h]
    rfl
  · exact (compare_password_fallback trivExt "x" "\x7bMD5\x7dy").2
      "MD5".data "y".data rfl rfl rfl

/-- C8 counterexample: `\x7bMD5\x7dx` carries no recognized hash-scheme tag
(neither `CRYPT` nor `SSHA`), and the candidate equals the stored value
literally, yet the verifier returns false — refuting the claim that every
value without a recognized tag is compared by literal equality. -/
theorem compare_password_unrecognized_tag_cex :
    reTagMatch ("\x7bMD5\x7dx").data = some ("MD5".data, "x".data)
    ∧ ("MD5" : String) ≠ "CRYPT"
    ∧ ("MD5" : String) ≠ "SSHA"
    ∧ ("\x7bMD5\x7dx" : String) = "\x7bMD5\x7dx"
    ∧ compare_password trivExt "\x7bMD5\x7dx" "\x7bMD5\x7dx" = .ok false :=
  ⟨rfl, by decide, by decide, rfl, rfl⟩

/-- C9: password-change fails `NoSuchObject` for every absent target DN;
with no old password it unconditionally replaces `userPassword` by the
one-element list holding the new password; with an old password equal to the
first stored `userPassword` value (literal comparison — the definition of
`passwd_s` never invokes the scheme-aware verifier `compare_password`) it
performs the same replacement. -/
theorem passwd_semantics (validDn : String → Bool) (dir : Directory)
    (user : String) (oldpw : Option String) (newpw : String)
    (hvalid : validDn user = true) :
    (cidictGet dir user = none →
      passwd_s validDn dir user oldpw newpw = (.error .noSuchObject, dir))
    ∧ (∀ entry, cidictGet dir user = some entry →
        passwd_s validDn dir user none newpw
          = (.ok (), cidictSet dir user (dictSet entry "userPassword" [newpw])))
    ∧ (∀ entry v vs, cidictGet dir user = some entry →
        dictGet entry "userPassword" = some (v :: vs) →
        passwd_s validDn dir user (some v) newpw
          = (.ok (), cidictSet dir user (dictSet entry "userPassword" [newpw]))) := by
  refine ⟨?_, ?_, ?_⟩
  · intro habsent
    unfold passwd_s
    rw [hvalid, habsent]
    rfl
  · intro entry hget
    unfold passwd_s
    rw [hvalid, hget]
    rfl
  · intro entry v vs hget hpw
    unfold passwd_s
    rw [hvalid]
    simp only [hget, hpw, beq_self_eq_true, if_true]
    rfl

/-- Witness for C9 at concrete stores. -/
theorem passwd_semantics_witness :
    passwd_s (fun _ => true) [] "cn=a" none "new" = (.error .noSuchObject, [])
    ∧ passwd_s (fun _ => true) [("cn=a", [("userPassword", ["old"])])] "cn=a"
        none "new" = (.ok (), [("cn=a", [("userPassword", ["new"])])])
    ∧ passwd_s (fun _ => true) [("cn=a", [("userPassword", ["old"])])] "cn=a"
        (some "old") "new" = (.ok (), [("cn=a", [("userPassword", ["new"])])]) := by
  have h1 := passwd_semantics (fun _ => true) [] "cn=a" none "new" rfl
  have h2 := passwd_semantics (fun _ => true)
    [("cn=a", [("userPassword", ["old"])])] "cn=a" none "new" rfl
  have h3 := passwd_semantics (fun _ => true)
    [("cn=a", [("userPassword", ["old"])])] "cn=a" (some "old") "new" rfl
  refine ⟨h1.1 rfl, ?_, ?_⟩
  · have h := h2.2.1 [("userPassword", ["old"])] rfl
    rw [h]
    rfl
  · have h := h3.2.2 [("userPassword", ["old"])] "old" [] rfl rfl
    rw [h]
    rfl

/-- C10: when the target entry exists and holds a non-empty `userPassword`,
a password-change with a supplied old password that does not literally equal
the first stored value returns normally — no exception of any kind — and
leaves the store (hence the entry and its `userPassword`) completely
unchanged. -/
theorem passwd_wrong_oldpw_silent_noop (validDn : String → Bool)
    (dir : Directory) (user old newpw : String) (entry : Entry)
    (v : String) (vs : List String)
    (hvalid : validDn user = true)
    (hentry : cidictGet dir user = some entry)
    (hpw : dictGet entry "userPassword" = some (v :: vs))
    (hne : (v == old) = false) :
    passwd_s validDn dir user (some old) newpw = (.ok (), dir) := by
  unfold passwd_s
  rw [hvalid]
  simp only [hentry, hpw, hne, Bool.false_eq_true, if_false]
  rfl

/-- Witness for C10: wrong old password, entry untouched, no error. -/
theorem passwd_wrong_oldpw_silent_noop_witness :
    passwd_s (fun _ => true) [("cn=a", [("userPassword", ["old"])])] "cn=a"
      (some "bad") "new" = (.ok (), [("cn=a", [("userPassword", ["old"])])]) :=
  passwd_wrong_oldpw_silent_noop (fun _ => true)
    [("cn=a", [("userPassword", ["old"])])] "cn=a" "bad" "new"
    [("userPassword", ["old"])] "old" [] rfl rfl rfl (by decide)

end MockLdap
